import Mathlib

/-!
Verification of the repo-concat tool's file-selection engine and repository
cache against its specification.

The Go sources are shallowly embedded: Go strings are modelled as `List Char`
(`GoStr`), byte slices as `List Nat`, `time.Time` as nanoseconds in `Int`, and
a `filepath.Walk` traversal as the list of entries it reports, in walk order.
The program's two packages carry separate (and subtly different)
implementations of the pattern matcher and the text classifier; these are
embedded in the namespaces `Main` (package main) and `Tui` (package tui).
Functions whose code is byte-for-byte identical in both packages are defined
once at top level.
-/

/-- Go string, modelled as its list of characters. -/
abbrev GoStr := List Char

/-- Shorthand turning a Lean string literal into a modelled Go string. -/
def goStr (s : String) : GoStr := s.toList

/-- Models Go `strings.HasPrefix s pre`. -/
def goHasPrefix (s pre : GoStr) : Bool := pre.isPrefixOf s

/-- Models Go `strings.HasSuffix s suf`. -/
def goHasSuffix (s suf : GoStr) : Bool := suf.isSuffixOf s

/-- Models Go `strings.TrimPrefix`. -/
def goTrimPrefix (s pre : GoStr) : GoStr :=
  if goHasPrefix s pre then s.drop pre.length else s

/-- Models Go `strings.TrimSuffix`. -/
def goTrimSuffix (s suf : GoStr) : GoStr :=
  if goHasSuffix s suf then s.take (s.length - suf.length) else s

/-- Models Go `strings.Contains s string(c)` for one-character needles,
the only shape the program uses. -/
def goContainsChar (s : GoStr) (c : Char) : Bool := s.contains c

/-- Models Go `strings.Split(s, "/")` (and, on this program's target systems,
splitting on `string(filepath.Separator)`): the list of segments between
slashes; never empty. -/
def splitOnSlash : GoStr → List GoStr
  | [] => [[]]
  | c :: rest =>
    match splitOnSlash rest with
    | [] => [[]]
    | seg :: segs => if c = '/' then [] :: seg :: segs else (c :: seg) :: segs

/-- Models Go `strings.Trim(s, "/")`: strips leading and trailing slashes. -/
def goTrimSlashes (s : GoStr) : GoStr :=
  ((s.dropWhile (fun c => c == '/')).reverse.dropWhile (fun c => c == '/')).reverse

/-- Models Go `filepath.Base` on slash-separated paths: the last path element
after trailing slashes are removed; "." for the empty path, "/" for all-slash
paths. -/
def filepathBase (p : GoStr) : GoStr :=
  if p = [] then goStr "."
  else
    let trimmed := (p.reverse.dropWhile (fun c => c == '/')).reverse
    if trimmed = [] then goStr "/"
    else (trimmed.reverse.takeWhile (fun c => c != '/')).reverse

/-! ### A model of Go's `regexp` package on the fragment this program uses

Go's `regexp` (RE2) is an external library; the model below covers the regex
fragment the program's patterns exercise: literals, escaped metacharacters,
`.`, the postfix operators `*` `+` `?`, grouping `(...)`, alternation `|`,
and the anchors `^` `$`.  Character classes, counted repetition and
perl-style letter escapes are not supported and are rejected by the parser,
as are the patterns Go itself rejects that matter here: a repetition operator
with no operand (for example a pattern starting with `*`), an unmatched
parenthesis, a trailing backslash, and doubled repetition operators. -/

/-- Abstract syntax of the supported regular-expression fragment. -/
inductive Reg where
  | emptyStr : Reg
  | lit : Char → Reg
  | dot : Reg
  | bol : Reg
  | eol : Reg
  | cat : Reg → Reg → Reg
  | alt : Reg → Reg → Reg
  | star : Reg → Reg
deriving DecidableEq

/-- Repetition operators of the fragment. -/
def isRepOp (c : Char) : Bool := c == '*' || c == '+' || c == '?'

/-- Rejects a repetition operator immediately following another one
(Go: "invalid nested repetition operator"). -/
def rejectDoubleOp (r : Reg) (rest : GoStr) : Option (Reg × GoStr) :=
  match rest with
  | c :: _ => if isRepOp c then none else some (r, rest)
  | [] => some (r, rest)

/-- Parser modes: alternation level, sequence level, repetition level, atom. -/
inductive PMode where
  | alt | seq | rep | atom

/-- Recursive-descent parser for the supported fragment, structurally fueled so
that it computes by kernel reduction. Every recursive call decreases the fuel;
`regexpCompile` supplies enough fuel for any input. -/
def parseM : Nat → PMode → GoStr → Option (Reg × GoStr)
  | 0, _, _ => none
  | fuel + 1, .alt, s => do
    let (r, rest) ← parseM fuel .seq s
    match rest with
    | '|' :: rest2 => do
      let (r2, rest3) ← parseM fuel .alt rest2
      some (.alt r r2, rest3)
    | _ => some (r, rest)
  | fuel + 1, .seq, s =>
    match s with
    | [] => some (.emptyStr, [])
    | ')' :: _ => some (.emptyStr, s)
    | '|' :: _ => some (.emptyStr, s)
    | _ => do
      let (r, rest) ← parseM fuel .rep s
      let (r2, rest2) ← parseM fuel .seq rest
      some (.cat r r2, rest2)
  | fuel + 1, .rep, s => do
    let (r, rest) ← parseM fuel .atom s
    match rest with
    | '*' :: rest2 => rejectDoubleOp (.star r) rest2
    | '+' :: rest2 => rejectDoubleOp (.cat r (.star r)) rest2
    | '?' :: rest2 => rejectDoubleOp (.alt r .emptyStr) rest2
    | _ => some (r, rest)
  | fuel + 1, .atom, s =>
    match s with
    | [] => none
    | '(' :: rest => do
      let (r, rest2) ← parseM fuel .alt rest
      match rest2 with
      | ')' :: rest3 => some (r, rest3)
      | _ => none
    | ')' :: _ => none
    | '|' :: _ => none
    | '*' :: _ => none
    | '+' :: _ => none
    | '?' :: _ => none
    | '\\' :: c :: rest => if c.isAlphanum then none else some (.lit c, rest)
    | '\\' :: [] => none
    | '.' :: rest => some (.dot, rest)
    | '^' :: rest => some (.bol, rest)
    | '$' :: rest => some (.eol, rest)
    | '[' :: _ => none
    | c :: rest => some (.lit c, rest)

/-- Models Go `regexp.Compile` on the supported fragment: `some` of the parsed
regex when the whole pattern parses, `none` when it is rejected. -/
def regexpCompile (pat : GoStr) : Option Reg :=
  match parseM (4 * pat.length + 8) .alt pat with
  | some (r, []) => some r
  | _ => none

/-- End positions reachable from position `i` by zero or more strictly
progressing repetitions of `step`, fueled for structural termination. -/
def starEnds (step : Nat → List Nat) : Nat → Nat → List Nat
  | 0, i => [i]
  | fuel + 1, i =>
    i :: (((step i).filter (fun j => i < j)).map (fun j => starEnds step fuel j)).flatten

/-- End positions `j` such that the regex matches the substring of `s` from
position `i` to `j`; `^`/`$` assert the beginning/end of the whole text and
`.` matches any character except a newline, as in Go without flags. -/
def matchEnds (s : GoStr) : Reg → Nat → List Nat
  | .emptyStr, i => [i]
  | .lit c, i =>
    match s.get? i with
    | some c2 => if c2 = c then [i + 1] else []
    | none => []
  | .dot, i =>
    match s.get? i with
    | some c2 => if c2 = '\n' then [] else [i + 1]
    | none => []
  | .bol, i => if i = 0 then [i] else []
  | .eol, i => if i = s.length then [i] else []
  | .cat r1 r2, i => ((matchEnds s r1 i).map (fun j => matchEnds s r2 j)).flatten
  | .alt r1 r2, i => matchEnds s r1 i ++ matchEnds s r2 i
  | .star r, i => starEnds (fun j => matchEnds s r j) (s.length + 1) i

/-- Models Go `Regexp.MatchString`: the regex matches some substring of `s`. -/
def matchString (r : Reg) (s : GoStr) : Bool :=
  (List.range (s.length + 1)).any (fun i => !(matchEnds s r i).isEmpty)

/-- Characters Go `regexp.QuoteMeta` escapes. -/
def isRegexSpecial (c : Char) : Bool :=
  c == '\\' || c == '.' || c == '+' || c == '*' || c == '?' || c == '(' ||
  c == ')' || c == '|' || c == '[' || c == ']' || c == Char.ofNat 123 ||
  c == Char.ofNat 125 || c == '^' || c == '$'

/-- Models Go `regexp.QuoteMeta`. -/
def quoteMeta : GoStr → GoStr
  | [] => []
  | c :: rest =>
    if isRegexSpecial c then '\\' :: c :: quoteMeta rest else c :: quoteMeta rest

/-- Fueled body of `replaceAll`; the fuel is the input length, which suffices
because every step consumes at least one input character. -/
def replaceAllAux (old new : GoStr) : Nat → GoStr → GoStr
  | 0, s => s
  | _ + 1, [] => []
  | fuel + 1, c :: rest =>
    if !old.isEmpty && goHasPrefix (c :: rest) old then
      new ++ replaceAllAux old new fuel ((c :: rest).drop old.length)
    else
      c :: replaceAllAux old new fuel rest

/-- Models Go `strings.ReplaceAll` for a nonempty needle (the only use here). -/
def replaceAll (s old new : GoStr) : GoStr := replaceAllAux old new s.length s

/-! ### Pattern classification (identical in both packages) -/

/-- Models `isPathPattern` (identical in packages main and tui): a pattern is a
path pattern iff it starts with "/". -/
def isPathPattern (pattern : GoStr) : Bool := goHasPrefix pattern (goStr "/")

namespace Main

/-- Models `matchesPathPattern` (package main): strips the leading slash and
checks whether the first component of the relative path has the cleaned
pattern as a string prefix. -/
def matchesPathPattern (pattern relativePath : GoStr) : Bool :=
  if !isPathPattern pattern then false
  else
    let cleanPattern := goTrimPrefix pattern (goStr "/")
    match splitOnSlash relativePath with
    | p0 :: _ => goHasPrefix p0 cleanPattern
    | [] => false

/-- Models `matchesPattern` (package main): path patterns dispatch to
`matchesPathPattern`; every other pattern is compiled as a raw regex — there
is no glob translation in this package — and tried against both the relative
path and the base name; a pattern that fails to compile matches nothing. -/
def matchesPattern (pattern relativePath baseName : GoStr) : Bool :=
  if isPathPattern pattern then matchesPathPattern pattern relativePath
  else
    match regexpCompile pattern with
    | none => false
    | some compiled => matchString compiled relativePath || matchString compiled baseName

/-- Models `isTextFile` (package main). The file is `none` when `os.Open`
fails, otherwise `some` of its bytes; `file.Read` on a 512-byte buffer returns
`min 512 size` bytes and the only possible error in the model, `io.EOF` on an
empty file, is explicitly ignored by this version (`err != io.EOF` guard), so
an empty file is text. A null byte among the bytes read means binary. -/
def isTextFile (content : Option (List Nat)) : Bool :=
  match content with
  | none => false
  | some bytes => (bytes.take 512).all (fun b => b != 0)

end Main

namespace Tui

/-- Models `matchesPathPattern` (package tui): after stripping the leading
slash, a pattern ending in "/" is a directory pattern matched against the whole
relative path (`HasPrefix rel (pat ++ "/") || rel == pat`); otherwise the whole
relative path must have the pattern as a string prefix. -/
def matchesPathPattern (pattern relativePath : GoStr) : Bool :=
  let pattern := goTrimPrefix pattern (goStr "/")
  if goHasSuffix pattern (goStr "/") then
    let pattern := goTrimSuffix pattern (goStr "/")
    goHasPrefix relativePath (pattern ++ goStr "/") || relativePath == pattern
  else
    goHasPrefix relativePath pattern

/-- Models `globToRegex` (package tui): escape all regex metacharacters, map
the escaped `*` and `?` back to `.*` and `.`, and anchor with `^`/`$` unless
the result already begins/ends with `.*`. -/
def globToRegex (glob : GoStr) : GoStr :=
  let result := quoteMeta glob
  let result := replaceAll result (goStr "\\*") (goStr ".*")
  let result := replaceAll result (goStr "\\?") (goStr ".")
  let result := if !goHasPrefix result (goStr ".*") then '^' :: result else result
  let result := if !goHasSuffix result (goStr ".*") then result ++ goStr "$" else result
  result

/-- Models `matchesPattern` (package tui): path patterns dispatch to
`matchesPathPattern`; a pattern containing `*` or `?` is first translated by
`globToRegex`; the resulting regex is tried against both the relative path and
the base name, and a pattern that fails to compile matches nothing. -/
def matchesPattern (pattern relativePath baseName : GoStr) : Bool :=
  if isPathPattern pattern then matchesPathPattern pattern relativePath
  else
    let regexPattern :=
      if goContainsChar pattern '*' || goContainsChar pattern '?' then globToRegex pattern
      else pattern
    match regexpCompile regexPattern with
    | none => false
    | some re => matchString re relativePath || matchString re baseName

/-- Models `isTextFile` (package tui). Unlike the main package's version, this
one returns false whenever the read returns an error with zero bytes read
(`err != nil && n == 0`), which includes `io.EOF` on an empty file: an empty
file is classified as not text here. -/
def isTextFile (content : Option (List Nat)) : Bool :=
  match content with
  | none => false
  | some [] => false
  | some bytes => (bytes.take 512).all (fun b => b != 0)

end Tui

/-! ### The filter pipeline (package main): performDryRun and collectFiles -/

namespace Main

/-- One entry of a `filepath.Walk` traversal, in walk order. `rel` is the
entry's path relative to the walk root (`filepath.Rel` is total on the paths a
walk produces, so it is carried directly); `walkErr` is the error
`filepath.Walk` reports for the entry, if any; `content` is the file's bytes,
`none` when the file cannot be opened. -/
structure WalkEntry where
  rel : GoStr
  isDir : Bool
  walkErr : Option GoStr
  content : Option (List Nat)
deriving DecidableEq

/-- Absolute path `filepath.Walk` passes to the callback for an entry. -/
def entryPath (root : GoStr) (e : WalkEntry) : GoStr := root ++ '/' :: e.rel

/-- Errors `performDryRun`/`collectFiles` can return. -/
inductive ScanError where
  | invalidExclusionPattern (pattern : GoStr)
  | invalidInclusionPattern (pattern : GoStr)
  | walkError (msg : GoStr)
deriving DecidableEq

/-- The built-in default exclusion pattern list (package main). -/
def defaultExclusionPatterns : List GoStr :=
  [goStr "\\.git/",
   goStr "\\.gitignore$",
   goStr "\\.DS_Store$",
   goStr "node_modules/",
   goStr "\\.env$",
   goStr "\\.(jpg|jpeg|png|gif|svg|ico|bmp|tiff|webp)$",
   goStr "\\.(mp4|mov|avi|mkv|webm|flv)$",
   goStr "\\.(mp3|wav|flac|aac|ogg)$",
   goStr "\\.(zip|tar|gz|rar|7z|exe|dmg|pkg)$",
   goStr "\\.(pdf|doc|docx|xls|xlsx|ppt|pptx)$"]

/-- First pattern of the list that is not a path pattern and fails
`regexp.Compile`; models the validation loops at the top of `performDryRun`
and `collectFiles` (package main), which compile each non-path pattern as a
raw regex. -/
def findInvalidPattern (patterns : List GoStr) : Option GoStr :=
  patterns.find? (fun p => !isPathPattern p && (regexpCompile p).isNone)

/-- Runs a walk callback over the entries in order, aborting at the first
error, as `filepath.Walk` does when the callback returns a non-nil error. -/
def walkFold {α : Type} (step : α → WalkEntry → Except ScanError α) :
    α → List WalkEntry → α × Option ScanError
  | acc, [] => (acc, none)
  | acc, e :: es =>
    match step acc e with
    | .error err => (acc, some err)
    | .ok acc2 => walkFold step acc2 es

/-- One invocation of the walk callback inside `performDryRun` (package main):
walk errors abort; directories are skipped; a binary file is recorded as
excluded before any pattern is consulted; then exclusions, then inclusions. -/
def dryRunStep (root : GoStr) (allExclusionPatterns inclusionPatterns : List GoStr)
    (acc : List GoStr × List GoStr) (e : WalkEntry) :
    Except ScanError (List GoStr × List GoStr) :=
  match e.walkErr with
  | some msg => .error (.walkError msg)
  | none =>
    if e.isDir then .ok acc
    else
      let path := entryPath root e
      let relativePath := e.rel
      if !isTextFile e.content then .ok (acc.1, acc.2 ++ [path])
      else if allExclusionPatterns.any
          (fun p => matchesPattern p relativePath (filepathBase path)) then
        .ok (acc.1, acc.2 ++ [path])
      else if !inclusionPatterns.isEmpty && !inclusionPatterns.any
          (fun p => matchesPattern p relativePath (filepathBase path)) then
        .ok (acc.1, acc.2 ++ [path])
      else
        .ok (acc.1 ++ [path], acc.2)

/-- Result of `performDryRun`: Go returns the accumulated slices together with
the error value. -/
structure DryRunResult where
  included : List GoStr
  excluded : List GoStr
  err : Option ScanError
deriving DecidableEq

/-- Models `performDryRun` (package main) over a walk-event list: validate the
user patterns, append the built-in defaults after the user exclusions, then
walk. -/
def performDryRun (rootPath : GoStr) (exclusionPatterns inclusionPatterns : List GoStr)
    (entries : List WalkEntry) : DryRunResult :=
  match findInvalidPattern exclusionPatterns with
  | some p => ⟨[], [], some (.invalidExclusionPattern p)⟩
  | none =>
    match findInvalidPattern inclusionPatterns with
    | some p => ⟨[], [], some (.invalidInclusionPattern p)⟩
    | none =>
      let allExclusionPatterns := exclusionPatterns ++ defaultExclusionPatterns
      let res := walkFold (dryRunStep rootPath allExclusionPatterns inclusionPatterns)
        ([], []) entries
      ⟨res.1.1, res.1.2, res.2⟩

/-- One invocation of the walk callback inside `collectFiles` (package main):
walk errors abort; directories are skipped; exclusions, then inclusions, and
a file passing both filters is kept only if it is a text file. -/
def collectStep (root : GoStr) (allExclusionPatterns inclusionPatterns : List GoStr)
    (files : List GoStr) (e : WalkEntry) : Except ScanError (List GoStr) :=
  match e.walkErr with
  | some msg => .error (.walkError msg)
  | none =>
    if e.isDir then .ok files
    else
      let path := entryPath root e
      let relativePath := e.rel
      if allExclusionPatterns.any
          (fun p => matchesPattern p relativePath (filepathBase path)) then
        .ok files
      else if !inclusionPatterns.isEmpty && !inclusionPatterns.any
          (fun p => matchesPattern p relativePath (filepathBase path)) then
        .ok files
      else if isTextFile e.content then
        .ok (files ++ [path])
      else
        .ok files

/-- Result of `collectFiles`: the accumulated files with the error value. -/
structure CollectResult where
  files : List GoStr
  err : Option ScanError
deriving DecidableEq

/-- Models `collectFiles` (package main): identical validation and default
pattern list as `performDryRun`, then the collect-mode walk. -/
def collectFiles (rootPath : GoStr) (exclusionPatterns inclusionPatterns : List GoStr)
    (entries : List WalkEntry) : CollectResult :=
  match findInvalidPattern exclusionPatterns with
  | some p => ⟨[], some (.invalidExclusionPattern p)⟩
  | none =>
    match findInvalidPattern inclusionPatterns with
    | some p => ⟨[], some (.invalidInclusionPattern p)⟩
    | none =>
      let allExclusionPatterns := exclusionPatterns ++ defaultExclusionPatterns
      let res := walkFold (collectStep rootPath allExclusionPatterns inclusionPatterns)
        [] entries
      ⟨res.1, res.2⟩

end Main

/-! ### The repository cache (identical code in both packages)

The cache state is modelled for the single metadata key `urlToHash(url)` of
the source identifier under discussion (`crypto/md5` is an external library;
nothing below depends on the digest itself). `meta` is the state of that one
metadata file: absent, present-but-unreadable-or-unparsable, or parsed;
`dirs` is the set of directories existing on disk. `time.Time` values are
nanoseconds in an `Int`; `os.Remove`/`os.RemoveAll` are modelled as
succeeding (the code ignores their errors). -/

/-- Models the `CacheEntry` struct (identical in both packages). -/
structure CacheEntry where
  url : GoStr
  cachedAt : Int
  repoPath : GoStr
  expiresAt : Int
deriving DecidableEq

/-- State of the metadata file for the key under discussion. -/
inductive MetaFileState where
  | absent
  | unreadable
  | present (entry : CacheEntry)
deriving DecidableEq

/-- Filesystem state the cache functions touch. -/
structure CacheState where
  meta : MetaFileState
  dirs : List GoStr
deriving DecidableEq

/-- Error returned by `getCachedRepo` when the metadata file exists but
`os.ReadFile` or `json.Unmarshal` fails. -/
inductive CacheError where
  | metadataUnreadable
deriving DecidableEq

/-- Return value of `getCachedRepo`: `(repoPath, found, cachedAt, err)`. -/
structure LookupResult where
  repoPath : GoStr
  found : Bool
  cachedAt : Int
  err : Option CacheError
deriving DecidableEq

/-- Models `getCachedRepo` (identical in packages main and tui): metadata
absence is a plain miss; an unreadable/unparsable metadata file is an error;
an entry with `time.Now().After(expiresAt)` is expired — metadata file and
repository directory are both removed; unexpired metadata whose directory is
gone has only the metadata removed; otherwise the entry is served. -/
def getCachedRepo (now : Int) (st : CacheState) : LookupResult × CacheState :=
  match st.meta with
  | .absent => (⟨[], false, 0, none⟩, st)
  | .unreadable => (⟨[], false, 0, some .metadataUnreadable⟩, st)
  | .present entry =>
    if now > entry.expiresAt then
      (⟨[], false, 0, none⟩, ⟨.absent, st.dirs.filter (fun d => d ≠ entry.repoPath)⟩)
    else if !st.dirs.contains entry.repoPath then
      (⟨[], false, 0, none⟩, ⟨.absent, st.dirs⟩)
    else
      (⟨entry.repoPath, true, entry.cachedAt, none⟩, st)

/-- The cache TTL: `5 * time.Minute` in nanoseconds. -/
def cacheTTL : Int := 5 * 60 * 1000000000

/-- Models `cacheRepo` (identical in both packages): writes a fresh metadata
entry with `cachedAt = now` and `expiresAt = now + 5 minutes`, overwriting any
prior entry for the key; `os.MkdirAll`, `json.Marshal` and `os.WriteFile` are
modelled as succeeding. -/
def cacheRepo (now : Int) (url repoPath : GoStr) (st : CacheState) : CacheState :=
  { st with meta := .present ⟨url, now, repoPath, now + cacheTTL⟩ }

/-! ### URL helpers and resolution -/

/-- Scans for the "://" scheme separator and returns what follows it. -/
def dropScheme : GoStr → Option GoStr
  | [] => none
  | ':' :: '/' :: '/' :: rest => some rest
  | _ :: rest => dropScheme rest

/-- Models the part of `net/url.Parse` this program relies on: on the URL
shapes it receives parsing never fails, and `.Path` is everything from the
first '/' after the scheme-and-host part (or the whole string when there is
no "://"). -/
def urlParsePath (s : GoStr) : GoStr :=
  match dropScheme s with
  | some rest => rest.dropWhile (fun c => c != '/')
  | none => s

/-- Models `extractRepoName` (identical logic in both packages): the second
segment of the URL path with a ".git" suffix removed, or "repository".
`url.Parse` is modelled as always succeeding, so the parse-error fallback
branch is unreachable in the model. -/
def extractRepoName (githubURL : GoStr) : GoStr :=
  match splitOnSlash (goTrimSlashes (urlParsePath githubURL)) with
  | _ :: name :: _ => goTrimSuffix name (goStr ".git")
  | _ => goStr "repository"

/-- Models `getTmpCacheDir` (identical in both packages). -/
def getTmpCacheDir : GoStr := goStr "/tmp/repo-concat-cache"

/-- Errors the resolution paths can produce. -/
inductive ResolveError where
  | localDirMissing (path : GoStr)
  | cloneFailed
  | cacheCheckFailed
  | noSourceSpecified
deriving DecidableEq

namespace Tui

/-- Models the tui `Config` struct. -/
structure Config where
  URL : GoStr
  Path : GoStr
  Include : List GoStr
  Exclude : List GoStr
  Output : GoStr
  EnableTUI : Bool
deriving DecidableEq

/-- Models `resolveRepositoryPath` (package tui): a configured local path is
returned unchanged (even when a URL is also configured); otherwise the cache
is consulted — a cache error is surfaced as "cache check failed" — and on a
miss the repository is cloned into the cache directory and stored.
`os.MkdirAll` is modelled as succeeding; `cloneRepository` (an external `git
clone`) succeeds iff `cloneOk`, materialising the repository directory. -/
def resolveRepositoryPath (config : Config) (now : Int) (st : CacheState)
    (cloneOk : Bool) : Except ResolveError GoStr × CacheState :=
  if config.Path ≠ [] then
    (.ok config.Path, st)
  else if config.URL ≠ [] then
    let res := getCachedRepo now st
    if res.1.err.isSome then
      (.error .cacheCheckFailed, res.2)
    else if res.1.found then
      (.ok res.1.repoPath, res.2)
    else
      let repoName := extractRepoName config.URL
      let repoPath := getTmpCacheDir ++ '/' :: repoName
      let st2 : CacheState := ⟨res.2.meta, res.2.dirs.filter (fun d => d ≠ repoPath)⟩
      if !cloneOk then
        (.error .cloneFailed, st2)
      else
        let st3 : CacheState := ⟨st2.meta, st2.dirs ++ [repoPath]⟩
        (.ok repoPath, cacheRepo now config.URL repoPath st3)
  else
    (.error .noSourceSpecified, st)

end Tui

namespace Main

/-- Models the main `Config` struct (package main). -/
structure Config where
  githubURL : GoStr
  localPath : GoStr
  exclusions : List GoStr
  inclusions : List GoStr
  peek : Bool
  outputDir : GoStr
  tokenEst : Bool
  enableTUI : Bool
deriving DecidableEq

/-- Configuration errors `main` reports before processing. -/
inductive ConfigError where
  | noSource
  | bothSources
deriving DecidableEq

/-- What `main` decides to do after flag parsing. -/
inductive MainAction where
  | runTUI
  | configError (e : ConfigError)
  | process
deriving DecidableEq

/-- Models the dispatch logic of `main` (package main): the TUI branch runs
and returns before any validation; otherwise a configuration specifying
neither a URL nor a local path, or both, is rejected before
`processRepository` — the first point of filesystem or network I/O — runs. -/
def mainDispatch (config : Config) : MainAction :=
  if config.enableTUI then .runTUI
  else if config.githubURL = [] ∧ config.localPath = [] then .configError .noSource
  else if config.githubURL ≠ [] ∧ config.localPath ≠ [] then .configError .bothSources
  else .process

/-- Warnings `processRepository` prints without failing. -/
inductive Warning where
  | cacheCheckFailed
deriving DecidableEq

/-- Outcome of the resolution phase of `processRepository`. -/
structure ResolveOutcome where
  repoPath : GoStr
  state : CacheState
  warnings : List Warning
deriving DecidableEq

/-- Models the repository-resolution phase of `processRepository` (package
main): a configured local path is validated for existence and used directly;
otherwise the cache is consulted — a cache error only produces a WARNING and
resolution continues as a miss — and on a miss the repository is cloned into a
temp directory, moved under the cache directory, and its metadata stored.
`urlHash` stands for the md5 hex digest of the URL (`crypto/md5` is external);
`os.MkdirTemp`, `os.MkdirAll`, `os.RemoveAll` and `os.Rename` are modelled as
succeeding; the external `git clone` succeeds iff `cloneOk`. -/
def processRepositoryResolve (config : Config) (now : Int) (st : CacheState)
    (localExists cloneOk : Bool) (urlHash : GoStr) :
    Except ResolveError ResolveOutcome :=
  if config.localPath ≠ [] then
    if !localExists then .error (.localDirMissing config.localPath)
    else .ok ⟨config.localPath, st, []⟩
  else
    let res := getCachedRepo now st
    let warnings := if res.1.err.isSome then [Warning.cacheCheckFailed] else []
    let cachedPath := if res.1.err = none ∧ res.1.found then res.1.repoPath else []
    if cachedPath ≠ [] then
      .ok ⟨cachedPath, res.2, warnings⟩
    else
      if !cloneOk then .error .cloneFailed
      else
        let cachedRepoPath := getTmpCacheDir ++ '/' :: urlHash
        let st2 : CacheState :=
          ⟨res.2.meta, (res.2.dirs.filter (fun d => d ≠ cachedRepoPath)) ++ [cachedRepoPath]⟩
        .ok ⟨cachedRepoPath, cacheRepo now config.githubURL cachedRepoPath st2, warnings⟩

end Main

namespace Main

/-- The per-file inclusion condition both scan modes implement: text file,
no exclusion pattern matches, and the inclusion filter (when non-empty) has a
match. Used to relate the two walk callbacks. -/
def fileIncluded (root : GoStr) (allExclusionPatterns inclusionPatterns : List GoStr)
    (e : WalkEntry) : Bool :=
  isTextFile e.content
  && !(allExclusionPatterns.any
        (fun p => matchesPattern p e.rel (filepathBase (entryPath root e))))
  && !(!inclusionPatterns.isEmpty && !(inclusionPatterns.any
        (fun p => matchesPattern p e.rel (filepathBase (entryPath root e)))))

end Main

/-! ### Generic lemmas about the embedded primitives -/

theorem goHasPrefix_iff (pre s : GoStr) :
    goHasPrefix s pre = true ↔ ∃ t, s = pre ++ t := by
  unfold goHasPrefix
  rw [List.isPrefixOf_iff_prefix]
  constructor
  · rintro ⟨t, ht⟩
    exact ⟨t, ht.symm⟩
  · rintro ⟨t, ht⟩
    exact ⟨t, ht.symm⟩

theorem splitOnSlash_shape (p : GoStr) :
    ∃ segs, splitOnSlash p = (p.takeWhile (fun c => c != '/')) :: segs := by
  induction p with
  | nil => exact ⟨[], rfl⟩
  | cons c rest ih =>
    obtain ⟨segs, hs⟩ := ih
    by_cases hc : c = '/'
    · subst hc
      exact ⟨(rest.takeWhile (fun c => c != '/')) :: segs, by
        simp [splitOnSlash, hs, List.takeWhile_cons]⟩
    · exact ⟨segs, by simp [splitOnSlash, hs, List.takeWhile_cons, hc]⟩

theorem filter_ne_contains_false (l : List GoStr) (a : GoStr) :
    (l.filter (fun d => d ≠ a)).contains a = false := by
  induction l with
  | nil => rfl
  | cons x xs ih =>
    by_cases hx : x = a
    · rw [List.filter_cons, if_neg (by simp [hx])]
      exact ih
    · simp only [List.filter_cons]
      rw [if_pos (by simp [hx])]
      simp only [List.contains_cons]
      simp [ih, hx, Ne.symm hx]

/-! ### Walk-step lemmas relating the two scan modes -/

theorem dryRunStep_walkErr (root : GoStr) (aE incl : List GoStr)
    (acc : List GoStr × List GoStr) (e : Main.WalkEntry) (msg : GoStr)
    (hwe : e.walkErr = some msg) :
    Main.dryRunStep root aE incl acc e = .error (.walkError msg) := by
  unfold Main.dryRunStep
  rw [hwe]

theorem collectStep_walkErr (root : GoStr) (aE incl : List GoStr)
    (files : List GoStr) (e : Main.WalkEntry) (msg : GoStr)
    (hwe : e.walkErr = some msg) :
    Main.collectStep root aE incl files e = .error (.walkError msg) := by
  unfold Main.collectStep
  rw [hwe]

theorem dryRunStep_dir (root : GoStr) (aE incl : List GoStr)
    (acc : List GoStr × List GoStr) (e : Main.WalkEntry)
    (hwe : e.walkErr = none) (hdir : e.isDir = true) :
    Main.dryRunStep root aE incl acc e = .ok acc := by
  unfold Main.dryRunStep
  rw [hwe]
  simp [hdir]

theorem collectStep_dir (root : GoStr) (aE incl : List GoStr)
    (files : List GoStr) (e : Main.WalkEntry)
    (hwe : e.walkErr = none) (hdir : e.isDir = true) :
    Main.collectStep root aE incl files e = .ok files := by
  unfold Main.collectStep
  rw [hwe]
  simp [hdir]

theorem dryRunStep_file (root : GoStr) (aE incl : List GoStr)
    (inc exc : List GoStr) (e : Main.WalkEntry)
    (hwe : e.walkErr = none) (hdir : e.isDir = false) :
    Main.dryRunStep root aE incl (inc, exc) e =
      .ok (if Main.fileIncluded root aE incl e
           then (inc ++ [Main.entryPath root e], exc)
           else (inc, exc ++ [Main.entryPath root e])) := by
  unfold Main.dryRunStep Main.fileIncluded
  rw [hwe]
  simp only [hdir, Bool.false_eq_true, if_false]
  by_cases hT : Main.isTextFile e.content
  · by_cases hE : aE.any (fun p => Main.matchesPattern p e.rel (filepathBase (Main.entryPath root e)))
    · simp [hT, hE]
    · by_cases hI : !incl.isEmpty && !(incl.any (fun p => Main.matchesPattern p e.rel (filepathBase (Main.entryPath root e))))
      · simp [hT, hE, hI]
      · simp [hT, hE, hI]
  · simp [hT]

theorem collectStep_file (root : GoStr) (aE incl : List GoStr)
    (files : List GoStr) (e : Main.WalkEntry)
    (hwe : e.walkErr = none) (hdir : e.isDir = false) :
    Main.collectStep root aE incl files e =
      .ok (if Main.fileIncluded root aE incl e
           then files ++ [Main.entryPath root e]
           else files) := by
  unfold Main.collectStep Main.fileIncluded
  rw [hwe]
  simp only [hdir, Bool.false_eq_true, if_false]
  by_cases hT : Main.isTextFile e.content
  · by_cases hE : aE.any (fun p => Main.matchesPattern p e.rel (filepathBase (Main.entryPath root e)))
    · simp [hT, hE]
    · by_cases hI : !incl.isEmpty && !(incl.any (fun p => Main.matchesPattern p e.rel (filepathBase (Main.entryPath root e))))
      · simp [hT, hE, hI]
      · simp [hT, hE, hI]
  · by_cases hE : aE.any (fun p => Main.matchesPattern p e.rel (filepathBase (Main.entryPath root e)))
    · simp [hT, hE]
    · by_cases hI : !incl.isEmpty && !(incl.any (fun p => Main.matchesPattern p e.rel (filepathBase (Main.entryPath root e))))
      · simp [hT, hE, hI]
      · simp [hT, hE, hI]

theorem walkFold_agree (root : GoStr) (aE incl : List GoStr) :
    ∀ (entries : List Main.WalkEntry) (inc exc files : List GoStr), files = inc →
      (Main.walkFold (Main.collectStep root aE incl) files entries).1
        = (Main.walkFold (Main.dryRunStep root aE incl) (inc, exc) entries).1.1
      ∧ (Main.walkFold (Main.collectStep root aE incl) files entries).2
        = (Main.walkFold (Main.dryRunStep root aE incl) (inc, exc) entries).2 := by
  intro entries
  induction entries with
  | nil =>
    intro inc exc files hfi
    subst hfi
    exact ⟨rfl, rfl⟩
  | cons e es ih =>
    intro inc exc files hfi
    subst hfi
    cases hwe : e.walkErr with
    | some msg =>
      rw [Main.walkFold, Main.walkFold,
        dryRunStep_walkErr root aE incl (files, exc) e msg hwe,
        collectStep_walkErr root aE incl files e msg hwe]
      exact ⟨rfl, rfl⟩
    | none =>
      cases hdir : e.isDir with
      | true =>
        rw [Main.walkFold, Main.walkFold,
          dryRunStep_dir root aE incl (files, exc) e hwe hdir,
          collectStep_dir root aE incl files e hwe hdir]
        exact ih files exc files rfl
      | false =>
        rw [Main.walkFold, Main.walkFold,
          dryRunStep_file root aE incl files exc e hwe hdir,
          collectStep_file root aE incl files e hwe hdir]
        by_cases hI : Main.fileIncluded root aE incl e
        · simp only [hI, if_true]
          exact ih (files ++ [Main.entryPath root e]) exc (files ++ [Main.entryPath root e]) rfl
        · simp only [hI, if_false]
          exact ih files (exc ++ [Main.entryPath root e]) files rfl

/-! ### Walk-abort lemmas -/

theorem walkFold_append {α : Type} (step : α → Main.WalkEntry → Except Main.ScanError α) :
    ∀ (es : List Main.WalkEntry) (acc : α) (rest : List Main.WalkEntry),
      (Main.walkFold step acc es).2 = none →
      Main.walkFold step acc (es ++ rest)
        = Main.walkFold step (Main.walkFold step acc es).1 rest := by
  intro es
  induction es with
  | nil =>
    intro acc rest _
    rfl
  | cons e es ih =>
    intro acc rest hnone
    cases hstep : step acc e with
    | error err =>
      rw [Main.walkFold, hstep] at hnone
      exact absurd hnone (by simp)
    | ok acc2 =>
      rw [Main.walkFold, hstep] at hnone
      have hnone2 : (Main.walkFold step acc2 es).2 = none := hnone
      rw [List.cons_append, Main.walkFold, hstep, Main.walkFold, hstep]
      exact ih acc2 rest hnone2

theorem dryRunStep_ok_shape (root : GoStr) (aE incl : List GoStr)
    (acc : List GoStr × List GoStr) (e : Main.WalkEntry) (hwe : e.walkErr = none) :
    ∃ acc2, Main.dryRunStep root aE incl acc e = .ok acc2 := by
  cases hdir : e.isDir with
  | true => exact ⟨acc, dryRunStep_dir root aE incl acc e hwe hdir⟩
  | false => exact ⟨_, dryRunStep_file root aE incl acc.1 acc.2 e hwe hdir⟩

theorem walkFold_dry_noErr (root : GoStr) (aE incl : List GoStr) :
    ∀ (es : List Main.WalkEntry) (acc : List GoStr × List GoStr),
      (∀ x ∈ es, x.walkErr = none) →
      (Main.walkFold (Main.dryRunStep root aE incl) acc es).2 = none := by
  intro es
  induction es with
  | nil =>
    intro acc _
    rfl
  | cons e es ih =>
    intro acc hok
    obtain ⟨acc2, hacc⟩ := dryRunStep_ok_shape root aE incl acc e (hok e (by simp))
    rw [Main.walkFold, hacc]
    exact ih acc2 (fun x hx => hok x (by simp [hx]))

/-! ### Claim theorems -/

/-- C1: for every root, exclusion pattern list, inclusion pattern list and
filesystem walk, the included file list returned by the collect-mode scan
`collectFiles` equals the included file list returned by the dry-run scan
`performDryRun`, and both return the same error; the two modes differ only in
whether excluded records are reported. -/
theorem collectFiles_included_eq_performDryRun_included
    (root : GoStr) (excl incl : List GoStr) (entries : List Main.WalkEntry) :
    (Main.collectFiles root excl incl entries).files
      = (Main.performDryRun root excl incl entries).included
    ∧ (Main.collectFiles root excl incl entries).err
      = (Main.performDryRun root excl incl entries).err := by
  unfold Main.collectFiles Main.performDryRun
  cases h1 : Main.findInvalidPattern excl with
  | some p => exact ⟨rfl, rfl⟩
  | none =>
    cases h2 : Main.findInvalidPattern incl with
    | some p => exact ⟨rfl, rfl⟩
    | none =>
      exact walkFold_agree root (excl ++ Main.defaultExclusionPatterns) incl entries [] [] [] rfl

/-- C2 (amended): the MAIN package's `matchesPattern` on a PathPrefix pattern
`"/" ++ X` returns true iff the first path segment of the relative path has
`X` as a string prefix — in particular `/util` matches `utils/a.go` and
`utilities/x` but not `src/util.go`. The tui package's variant deviates from
this for `X` containing a slash (see the counterexample). -/
theorem matchesPattern_pathPrefix_iff :
    (∀ (X p b : GoStr),
      Main.matchesPattern ('/' :: X) p b = true
        ↔ ∃ t, p.takeWhile (fun c => c != '/') = X ++ t)
    ∧ Main.matchesPattern (goStr "/util") (goStr "utils/a.go") (goStr "a.go") = true
    ∧ Main.matchesPattern (goStr "/util") (goStr "utilities/x") (goStr "x") = true
    ∧ Main.matchesPattern (goStr "/util") (goStr "src/util.go") (goStr "util.go") = false := by
  refine ⟨?_, rfl, rfl, rfl⟩
  intro X p b
  have hpre : goHasPrefix ('/' :: X) (goStr "/") = true := by
    show List.isPrefixOf ['/'] ('/' :: X) = true
    simp [List.isPrefixOf]
  have hpp : isPathPattern ('/' :: X) = true := hpre
  have htrim : goTrimPrefix ('/' :: X) (goStr "/") = X := by
    simp only [goTrimPrefix, hpre, if_true]
    rfl
  obtain ⟨segs, hs⟩ := splitOnSlash_shape p
  rw [Main.matchesPattern, if_pos hpp, Main.matchesPathPattern, hpp]
  simp only [Bool.not_true, Bool.false_eq_true, if_false, htrim, hs]
  exact goHasPrefix_iff X (p.takeWhile (fun c => c != '/'))

/-- C2 fails as stated on the TUI package's `matchesPattern` (also a cited
source): the PathPrefix pattern "/util/" (X = "util/") matches the relative
path "util/a.go" although its first path segment "util" does not have "util/"
as a prefix. -/
theorem tui_matchesPattern_pathPrefix_counterexample :
    Tui.matchesPattern (goStr "/util/") (goStr "util/a.go") (goStr "a.go") = true
    ∧ goHasPrefix ((goStr "util/a.go").takeWhile (fun c => c != '/')) (goStr "util/") = false := by
  exact ⟨rfl, rfl⟩

/-- C3 (amended): the glob-to-regex translation lives in the TUI package's
`matchesPattern`/`globToRegex`: there `*.go` translates to the anchored regex
`.*\.go$` (no `^` is added because the translation begins with `.*`), which
matches `main.go` and `pkg/sub/x.go` but not `main.go.bak`; a glob needing
both anchors gets them (`data?` becomes `^data.$`). The main package's
`matchesPattern` performs no such translation (see the counterexample). -/
theorem globToRegex_translation_examples :
    Tui.globToRegex (goStr "*.go") = goStr ".*\\.go$"
    ∧ Tui.globToRegex (goStr "data?") = goStr "^data.$"
    ∧ Tui.matchesPattern (goStr "*.go") (goStr "main.go") (goStr "main.go") = true
    ∧ Tui.matchesPattern (goStr "*.go") (goStr "pkg/sub/x.go") (goStr "x.go") = true
    ∧ Tui.matchesPattern (goStr "*.go") (goStr "main.go.bak") (goStr "main.go.bak") = false := by
  exact ⟨rfl, rfl, rfl, rfl, rfl⟩

/-- C3 fails as stated on the MAIN package's `matchesPattern` (the cited
source): it performs no glob translation, `regexp.Compile` rejects the raw
pattern `*.go`, and so the glob matches nothing there — in particular not
`main.go`. -/
theorem main_matchesPattern_glob_counterexample :
    regexpCompile (goStr "*.go") = none
    ∧ Main.matchesPattern (goStr "*.go") (goStr "main.go") (goStr "main.go") = false := by
  exact ⟨rfl, rfl⟩

/-- C4 (amended): when the lookup time is STRICTLY after `expiresAt`
(`time.Now().After(entry.ExpiresAt)`), `getCachedRepo` returns `found = false`
and deletes both the metadata file and the cached repository directory — no
orphaned metadata and no orphaned directory. -/
theorem getCachedRepo_expired_cleans_up (now : Int) (st : CacheState) (entry : CacheEntry)
    (hmeta : st.meta = .present entry) (hexp : entry.expiresAt < now) :
    (getCachedRepo now st).1.found = false
    ∧ (getCachedRepo now st).1.repoPath = []
    ∧ (getCachedRepo now st).2.meta = .absent
    ∧ (getCachedRepo now st).2.dirs.contains entry.repoPath = false := by
  unfold getCachedRepo
  rw [hmeta]
  dsimp only
  rw [if_pos (show now > entry.expiresAt from hexp)]
  exact ⟨rfl, rfl, rfl, filter_ne_contains_false st.dirs entry.repoPath⟩

/-- Witness for `getCachedRepo_expired_cleans_up` at a concrete expired
entry. -/
theorem getCachedRepo_expired_cleans_up_witness :
    ((⟨.present ⟨goStr "u", 0, goStr "/r", 100⟩, [goStr "/r"]⟩ : CacheState).meta
        = .present ⟨goStr "u", 0, goStr "/r", 100⟩)
    ∧ ((100 : Int) < 101)
    ∧ ((getCachedRepo 101 ⟨.present ⟨goStr "u", 0, goStr "/r", 100⟩, [goStr "/r"]⟩).1.found = false
       ∧ (getCachedRepo 101 ⟨.present ⟨goStr "u", 0, goStr "/r", 100⟩, [goStr "/r"]⟩).1.repoPath = []
       ∧ (getCachedRepo 101 ⟨.present ⟨goStr "u", 0, goStr "/r", 100⟩, [goStr "/r"]⟩).2.meta = .absent
       ∧ (getCachedRepo 101 ⟨.present ⟨goStr "u", 0, goStr "/r", 100⟩, [goStr "/r"]⟩).2.dirs.contains (goStr "/r") = false) := by
  refine ⟨rfl, by decide, ?_⟩
  exact getCachedRepo_expired_cleans_up 101
    ⟨.present ⟨goStr "u", 0, goStr "/r", 100⟩, [goStr "/r"]⟩
    ⟨goStr "u", 0, goStr "/r", 100⟩ rfl (by decide)

/-- C4 fails at the boundary instant `now = expiresAt`: the code uses the
strict `After`, so with `now ≥ expiresAt` but `now = expiresAt` the entry is
still served — `found = true` and neither the metadata nor the directory is
deleted — where the claim demands `found = false` and deletion of both. -/
theorem getCachedRepo_boundary_counterexample :
    (getCachedRepo 100 ⟨.present ⟨goStr "u", 0, goStr "/r", 100⟩, [goStr "/r"]⟩).1.found = true
    ∧ (getCachedRepo 100 ⟨.present ⟨goStr "u", 0, goStr "/r", 100⟩, [goStr "/r"]⟩).2
        = ⟨.present ⟨goStr "u", 0, goStr "/r", 100⟩, [goStr "/r"]⟩ := by
  exact ⟨rfl, rfl⟩

/-- C5 (amended): when the patterns validate and the walk reports an error on
an entry, the scan aborts right there — the outcome is the same whatever
entries would have followed, so no later entry is examined — and the error is
surfaced to the caller. However, the included and excluded lists accumulated
before the failing entry ARE returned alongside the error (Go multi-value
return), so the caller does receive a partial result next to a non-nil
error. -/
theorem performDryRun_walkError_aborts
    (root : GoStr) (excl incl : List GoStr) (es rest : List Main.WalkEntry)
    (e : Main.WalkEntry) (msg : GoStr)
    (hex : Main.findInvalidPattern excl = none)
    (hin : Main.findInvalidPattern incl = none)
    (hok : ∀ x ∈ es, x.walkErr = none)
    (he : e.walkErr = some msg) :
    Main.performDryRun root excl incl (es ++ e :: rest)
      = Main.performDryRun root excl incl (es ++ [e])
    ∧ (Main.performDryRun root excl incl (es ++ e :: rest)).err
      = some (.walkError msg) := by
  unfold Main.performDryRun
  rw [hex, hin]
  dsimp only
  have h1 : (Main.walkFold
      (Main.dryRunStep root (excl ++ Main.defaultExclusionPatterns) incl) (([], []) : List GoStr × List GoStr) es).2 = none :=
    walkFold_dry_noErr root (excl ++ Main.defaultExclusionPatterns) incl es ([], []) hok
  rw [walkFold_append (Main.dryRunStep root (excl ++ Main.defaultExclusionPatterns) incl) es ([], []) (e :: rest) h1,
      walkFold_append (Main.dryRunStep root (excl ++ Main.defaultExclusionPatterns) incl) es ([], []) [e] h1]
  rw [Main.walkFold, Main.walkFold,
    dryRunStep_walkErr root (excl ++ Main.defaultExclusionPatterns) incl _ e msg he]
  exact ⟨rfl, rfl⟩

/-- Witness for `performDryRun_walkError_aborts`: empty pattern lists, no
entries before the failing one, one entry after it. -/
theorem performDryRun_walkError_aborts_witness :
    Main.findInvalidPattern [] = none
    ∧ ((⟨goStr "bad", false, some (goStr "permission denied"), none⟩ : Main.WalkEntry).walkErr
        = some (goStr "permission denied"))
    ∧ (Main.performDryRun (goStr "root") [] []
          ([] ++ (⟨goStr "bad", false, some (goStr "permission denied"), none⟩ : Main.WalkEntry)
            :: [⟨goStr "late", false, none, some [104]⟩])
        = Main.performDryRun (goStr "root") [] []
          ([] ++ [⟨goStr "bad", false, some (goStr "permission denied"), none⟩])
       ∧ (Main.performDryRun (goStr "root") [] []
          ([] ++ (⟨goStr "bad", false, some (goStr "permission denied"), none⟩ : Main.WalkEntry)
            :: [⟨goStr "late", false, none, some [104]⟩])).err
        = some (.walkError (goStr "permission denied"))) := by
  refine ⟨rfl, rfl, ?_⟩
  exact performDryRun_walkError_aborts (goStr "root") [] [] []
    [⟨goStr "late", false, none, some [104]⟩]
    ⟨goStr "bad", false, some (goStr "permission denied"), none⟩
    (goStr "permission denied") rfl rfl (by intro x hx; cases hx) rfl

/-- C5's "no partial result is returned" fails: with one good file walked
before the failing entry, `performDryRun` returns the non-empty partial
included list together with the error. -/
theorem performDryRun_partial_result_counterexample :
    Main.performDryRun (goStr "root") [] []
      [⟨goStr "a.go", false, none, some [104, 105]⟩,
       ⟨goStr "bad", false, some (goStr "permission denied"), none⟩]
    = ⟨[goStr "root/a.go"], [], some (.walkError (goStr "permission denied"))⟩ := by
  rfl

/-- C6 (amended): when the metadata file for a source exists but cannot be
read or parsed, `getCachedRepo` surfaces the error (and reports not-found),
and the TUI resolution path `resolveRepositoryPath` propagates it as a
"cache check failed" error instead of proceeding; the CLI `processRepository`,
however, only prints a warning and continues as if the lookup had missed (see
the counterexample). -/
theorem cache_read_error_surfaced :
    (∀ (now : Int) (st : CacheState), st.meta = .unreadable →
      (getCachedRepo now st).1.err = some .metadataUnreadable
      ∧ (getCachedRepo now st).1.found = false)
    ∧ (∀ (config : Tui.Config) (now : Int) (st : CacheState) (cloneOk : Bool),
        config.Path = [] → config.URL ≠ [] → st.meta = .unreadable →
        (Tui.resolveRepositoryPath config now st cloneOk).1 = .error .cacheCheckFailed) := by
  constructor
  · intro now st hm
    unfold getCachedRepo
    rw [hm]
    exact ⟨rfl, rfl⟩
  · intro config now st cloneOk hp hu hm
    have hget : getCachedRepo now st
        = (⟨[], false, 0, some .metadataUnreadable⟩, st) := by
      unfold getCachedRepo
      rw [hm]
    unfold Tui.resolveRepositoryPath
    rw [if_neg (by simp [hp]), if_pos hu, hget]
    rfl

/-- Witness for `cache_read_error_surfaced` at a concrete unreadable-metadata
state. -/
theorem cache_read_error_surfaced_witness :
    ((⟨.unreadable, []⟩ : CacheState).meta = .unreadable)
    ∧ ((goStr "u" : GoStr) ≠ [])
    ∧ ((getCachedRepo 0 ⟨.unreadable, []⟩).1.err = some .metadataUnreadable
       ∧ (getCachedRepo 0 ⟨.unreadable, []⟩).1.found = false)
    ∧ (Tui.resolveRepositoryPath ⟨goStr "u", [], [], [], [], true⟩ 0 ⟨.unreadable, []⟩ true).1
        = .error .cacheCheckFailed := by
  refine ⟨rfl, by decide, ?_, ?_⟩
  · exact cache_read_error_surfaced.1 0 ⟨.unreadable, []⟩ rfl
  · exact cache_read_error_surfaced.2 ⟨goStr "u", [], [], [], [], true⟩ 0 ⟨.unreadable, []⟩ true
      rfl (by decide) rfl

/-- C6 fails for `processRepository` (a cited source): with unreadable
metadata and a working clone, its resolution phase succeeds — it treats the
state as a miss, clones, and surfaces no error to the caller; only a warning
is printed. -/
theorem processRepository_masks_cache_error_counterexample :
    Main.processRepositoryResolve ⟨goStr "u", [], [], [], false, goStr ".", true, false⟩ 0
      ⟨.unreadable, []⟩ true true (goStr "abc123")
    = .ok ⟨goStr "/tmp/repo-concat-cache/abc123",
           ⟨.present ⟨goStr "u", 0, goStr "/tmp/repo-concat-cache/abc123", cacheTTL⟩,
            [goStr "/tmp/repo-concat-cache/abc123"]⟩,
           [.cacheCheckFailed]⟩ := by
  rfl

/-- C7 (amended): `cacheRepo` followed by `getCachedRepo` for the same source
within the TTL window returns `found = true` with exactly the stored path (and
the store time), PROVIDED the stored local path exists on disk at lookup time
— `getCachedRepo` also validates on-disk presence, so a stored path that does
not exist is reported as not-found (see the counterexample). -/
theorem cacheRepo_then_getCachedRepo_found (now now2 : Int) (url path : GoStr)
    (st : CacheState)
    (hdir : st.dirs.contains path = true)
    (ht : now2 ≤ now + cacheTTL) :
    (getCachedRepo now2 (cacheRepo now url path st)).1.found = true
    ∧ (getCachedRepo now2 (cacheRepo now url path st)).1.repoPath = path
    ∧ (getCachedRepo now2 (cacheRepo now url path st)).1.cachedAt = now := by
  unfold cacheRepo getCachedRepo
  dsimp only
  rw [if_neg (show ¬ now2 > now + cacheTTL by omega)]
  rw [hdir]
  exact ⟨rfl, rfl, rfl⟩

/-- Witness for `cacheRepo_then_getCachedRepo_found`: store at time 0, look up
at time 1 with the directory present. -/
theorem cacheRepo_then_getCachedRepo_found_witness :
    ((⟨.absent, [goStr "/r"]⟩ : CacheState).dirs.contains (goStr "/r") = true)
    ∧ ((1 : Int) ≤ 0 + cacheTTL)
    ∧ ((getCachedRepo 1 (cacheRepo 0 (goStr "u") (goStr "/r") ⟨.absent, [goStr "/r"]⟩)).1.found = true
       ∧ (getCachedRepo 1 (cacheRepo 0 (goStr "u") (goStr "/r") ⟨.absent, [goStr "/r"]⟩)).1.repoPath = goStr "/r"
       ∧ (getCachedRepo 1 (cacheRepo 0 (goStr "u") (goStr "/r") ⟨.absent, [goStr "/r"]⟩)).1.cachedAt = 0) := by
  refine ⟨rfl, by decide, ?_⟩
  exact cacheRepo_then_getCachedRepo_found 0 1 (goStr "u") (goStr "/r")
    ⟨.absent, [goStr "/r"]⟩ rfl (by decide)

/-- C7 fails as stated ("for every source identifier and local path"): storing
a path that does not exist on disk and looking it up immediately within the
TTL returns `found = false` — `getCachedRepo` removes the metadata because the
directory is absent. -/
theorem cacheRepo_then_getCachedRepo_missing_dir_counterexample :
    (getCachedRepo 0 (cacheRepo 0 (goStr "u") (goStr "/missing") ⟨.absent, []⟩)).1.found = false
    ∧ (getCachedRepo 0 (cacheRepo 0 (goStr "u") (goStr "/missing") ⟨.absent, []⟩)).2.meta = .absent := by
  exact ⟨rfl, rfl⟩

/-- C8: a file whose first `min(size, 512)` bytes contain a null byte is
classified binary by `isTextFile` — in both packages — and the dry-run walk
step records it in the excluded set, leaving the included list untouched,
regardless of the file's name and of every exclusion/inclusion pattern
configured. -/
theorem nullByte_classified_binary_and_excluded (bytes : List Nat)
    (hnull : 0 ∈ bytes.take 512)
    (root rel : GoStr) (allExcl incl : List GoStr) (inc exc : List GoStr) :
    Main.isTextFile (some bytes) = false
    ∧ Tui.isTextFile (some bytes) = false
    ∧ Main.dryRunStep root allExcl incl (inc, exc) ⟨rel, false, none, some bytes⟩
        = .ok (inc, exc ++ [Main.entryPath root ⟨rel, false, none, some bytes⟩]) := by
  have hall : (bytes.take 512).all (fun b => b != 0) = false := by
    rw [Bool.eq_false_iff]
    intro hall
    rw [List.all_eq_true] at hall
    have h0 := hall 0 hnull
    simp at h0
  have hmain : Main.isTextFile (some bytes) = false := by
    unfold Main.isTextFile
    exact hall
  have htui : Tui.isTextFile (some bytes) = false := by
    cases bytes with
    | nil => simp at hnull
    | cons b bs =>
      unfold Tui.isTextFile
      exact hall
  refine ⟨hmain, htui, ?_⟩
  unfold Main.dryRunStep
  simp only [hmain]
  rfl

/-- Witness for `nullByte_classified_binary_and_excluded` on a one-byte file
containing only a null byte. -/
theorem nullByte_classified_binary_and_excluded_witness :
    (0 ∈ ([0] : List Nat).take 512)
    ∧ (Main.isTextFile (some [0]) = false
       ∧ Tui.isTextFile (some [0]) = false
       ∧ Main.dryRunStep (goStr "r") [] [] ([], [])
           ⟨goStr "data.go", false, none, some [0]⟩
         = .ok ([], [] ++ [Main.entryPath (goStr "r") ⟨goStr "data.go", false, none, some [0]⟩])) := by
  refine ⟨by decide, ?_⟩
  exact nullByte_classified_binary_and_excluded [0] (by decide)
    (goStr "r") (goStr "data.go") [] [] [] []

/-- C9 (amended): in the CLI path (TUI disabled), `main` rejects a
configuration specifying neither a URL nor a local path, and one specifying
both, before `processRepository` — the first point of filesystem or network
I/O — runs; the TUI resolution `resolveRepositoryPath` likewise fails with a
configuration error when neither is specified. With BOTH specified, however,
the TUI path silently prefers the local path (see the counterexample). -/
theorem source_config_validation (config : Main.Config) (tconfig : Tui.Config)
    (now : Int) (st : CacheState) (cloneOk : Bool) :
    (config.enableTUI = false → config.githubURL = [] → config.localPath = [] →
      Main.mainDispatch config = .configError .noSource)
    ∧ (config.enableTUI = false → config.githubURL ≠ [] → config.localPath ≠ [] →
      Main.mainDispatch config = .configError .bothSources)
    ∧ (tconfig.Path = [] → tconfig.URL = [] →
      (Tui.resolveRepositoryPath tconfig now st cloneOk).1 = .error .noSourceSpecified) := by
  refine ⟨?_, ?_, ?_⟩
  · intro htui hu hp
    unfold Main.mainDispatch
    rw [if_neg (by simp [htui]), if_pos ⟨hu, hp⟩]
  · intro htui hu hp
    unfold Main.mainDispatch
    rw [if_neg (by simp [htui]), if_neg (by simp [hu]), if_pos ⟨hu, hp⟩]
  · intro hp hu
    unfold Tui.resolveRepositoryPath
    rw [if_neg (by simp [hp]), if_neg (by simp [hu])]

/-- Witness for `source_config_validation` at concrete configurations. -/
theorem source_config_validation_witness :
    (Main.mainDispatch ⟨[], [], [], [], false, goStr ".", true, false⟩
        = .configError .noSource)
    ∧ (Main.mainDispatch ⟨goStr "u", goStr "/p", [], [], false, goStr ".", true, false⟩
        = .configError .bothSources)
    ∧ ((Tui.resolveRepositoryPath ⟨[], [], [], [], [], true⟩ 0 ⟨.absent, []⟩ true).1
        = .error .noSourceSpecified) := by
  refine ⟨?_, ?_, ?_⟩
  · exact (source_config_validation ⟨[], [], [], [], false, goStr ".", true, false⟩
      ⟨[], [], [], [], [], true⟩ 0 ⟨.absent, []⟩ true).1 rfl rfl rfl
  · exact ((source_config_validation ⟨goStr "u", goStr "/p", [], [], false, goStr ".", true, false⟩
      ⟨[], [], [], [], [], true⟩ 0 ⟨.absent, []⟩ true).2).1 rfl (by decide) (by decide)
  · exact ((source_config_validation ⟨[], [], [], [], false, goStr ".", true, false⟩
      ⟨[], [], [], [], [], true⟩ 0 ⟨.absent, []⟩ true).2).2 rfl rfl

/-- C9 fails as stated for a configuration specifying BOTH sources: the TUI
resolution returns the local path with no configuration error at all, and in
TUI mode `main` never reaches its both-sources check. -/
theorem both_sources_no_config_error_counterexample :
    (Tui.resolveRepositoryPath ⟨goStr "https://x/y/z", goStr "/local", [], [], [], true⟩ 0
        ⟨.absent, []⟩ true).1 = .ok (goStr "/local")
    ∧ Main.mainDispatch ⟨goStr "u", goStr "/p", [], [], false, goStr ".", true, true⟩
        = .runTUI := by
  exact ⟨rfl, rfl⟩

/-- C10 (amended): `matchesPattern` is a total function and never aborts a
traversal; a non-PathPrefix pattern that fails `regexp.Compile` matches
nothing in the MAIN package; in the TUI package the same holds for patterns
containing no `*` or `?` — a pattern with glob metacharacters is translated
by `globToRegex` first and can still match (see the counterexample). -/
theorem matchesPattern_uncompilable_matches_nothing (pat rel b : GoStr)
    (hnp : isPathPattern pat = false) (hc : regexpCompile pat = none) :
    Main.matchesPattern pat rel b = false
    ∧ (goContainsChar pat '*' = false → goContainsChar pat '?' = false →
        Tui.matchesPattern pat rel b = false) := by
  constructor
  · unfold Main.matchesPattern
    rw [if_neg (by simp [hnp]), hc]
  · intro h1 h2
    unfold Tui.matchesPattern
    rw [if_neg (by simp [hnp])]
    simp only [h1, h2, Bool.or_self, Bool.false_eq_true, if_false, hc]

/-- Witness for `matchesPattern_uncompilable_matches_nothing` on the
uncompilable pattern "(". -/
theorem matchesPattern_uncompilable_matches_nothing_witness :
    isPathPattern (goStr "(") = false
    ∧ regexpCompile (goStr "(") = none
    ∧ goContainsChar (goStr "(") '*' = false
    ∧ goContainsChar (goStr "(") '?' = false
    ∧ Main.matchesPattern (goStr "(") (goStr "a") (goStr "a") = false
    ∧ Tui.matchesPattern (goStr "(") (goStr "a") (goStr "a") = false := by
  refine ⟨rfl, rfl, rfl, rfl, ?_, ?_⟩
  · exact (matchesPattern_uncompilable_matches_nothing (goStr "(") (goStr "a") (goStr "a")
      rfl rfl).1
  · exact (matchesPattern_uncompilable_matches_nothing (goStr "(") (goStr "a") (goStr "a")
      rfl rfl).2 rfl rfl

/-- C10 fails as stated in the TUI package: the non-PathPrefix pattern "*.go"
fails to compile as a regular expression, yet the TUI `matchesPattern` matches
it against "main.go" because the pattern is glob-translated before
compilation. -/
theorem tui_matchesPattern_uncompilable_matches_counterexample :
    regexpCompile (goStr "*.go") = none
    ∧ isPathPattern (goStr "*.go") = false
    ∧ Tui.matchesPattern (goStr "*.go") (goStr "main.go") (goStr "main.go") = true := by
  exact ⟨rfl, rfl, rfl⟩
